import Mathlib

/-!
# The doubler use case of `main.go`

A shallow embedding of the use case interactor built by `helloWorld` in
`src/main.go` (lines 66-87): the two structs `myInput` and `myOutput` and the
function literal handed to `usecase.NewInteractor`.

Modelling choices.

* Go `int` is taken at its 64-bit width.  A value of that type is a
  mathematical integer `x` with `IsInt x`; `+` on the type is addition followed
  by `wrapInt`, the reduction modulo `2 ^ 64` into the signed range.
* Go `%` is the truncated remainder, `Int.tmod`.
* A Go `string` is an immutable sequence of bytes, `List UInt8`; `+` on strings
  is list append.  `goStr` gives the bytes of a string literal (its UTF-8
  encoding).
* The function literal writes through the pointer `output`.  The embedding
  passes the pointee in and returns its final content next to the returned
  `error`.
* The returned `error` is `nil` (`none`) or a value of the `status.Code` type
  of `github.com/swaggest/usecase/status` (`some c`).
* The `context.Context` argument is never read; it is a value of an arbitrary
  type `Ctx`.
-/

/-! ## Go base types -/

/-- Go strings are byte sequences. -/
abbrev GoString := List UInt8

/-- Bytes of a Go string literal: the UTF-8 encoding of its characters. -/
def goStr (s : String) : GoString := s.data.flatMap String.utf8EncodeChar

/-- Smallest value of the 64-bit Go `int`. -/
def minInt : Int := -(2 ^ 63)

/-- Largest value of the 64-bit Go `int`. -/
def maxInt : Int := 2 ^ 63 - 1

/-- The integer `x` is a value of the 64-bit Go `int` type. -/
def IsInt (x : Int) : Prop := minInt ≤ x ∧ x ≤ maxInt

instance (x : Int) : Decidable (IsInt x) := by
  unfold IsInt
  infer_instance

/-- Two's-complement reduction of an integer into the 64-bit signed range. -/
def wrapInt (x : Int) : Int := (x + 2 ^ 63) % 2 ^ 64 - 2 ^ 63

/-- Go `a + b` on `int`: the sum, wrapped around on overflow. -/
def goAdd (a b : Int) : Int := wrapInt (a + b)

/-- Go `a % b` on `int`: the remainder of the division truncated towards zero
(the sign of the result follows the dividend). -/
def goRem (a b : Int) : Int := Int.tmod a b

/-- The status codes of `github.com/swaggest/usecase/status`, the type of the
constant `status.InvalidArgument` that `main.go` returns as its `error`. -/
inductive status.Code where
  | OK
  | Canceled
  | Unknown
  | InvalidArgument
  | DeadlineExceeded
  | NotFound
  | AlreadyExists
  | PermissionDenied
  | ResourceExhausted
  | FailedPrecondition
  | Aborted
  | OutOfRange
  | Unimplemented
  | Internal
  | Unavailable
  | DataLoss
  | Unauthenticated
  deriving DecidableEq, Repr

/-! ## `main.go`, lines 66-87 -/

/-- The struct `myInput` (main.go:66-69). -/
structure myInput where
  Param1 : Int
  Param2 : GoString
  deriving DecidableEq, Repr

/-- The struct `myOutput` (main.go:71-74). -/
structure myOutput where
  Value1 : Int
  Value2 : GoString
  deriving DecidableEq, Repr

/-- The function literal that `helloWorld` passes to `usecase.NewInteractor`
(main.go:77-87).  The first component of the result is the returned `error`,
the second is what `*output` holds when the function returns. -/
def helloWorld.func {Ctx : Type} (_ctx : Ctx) (input : myInput) (output : myOutput) :
    Option status.Code × myOutput :=
  if goRem input.Param1 2 ≠ 0 then
    (some status.Code.InvalidArgument, output)
  else
    -- Do something to set output based on input.
    let output := { output with Value1 := goAdd input.Param1 input.Param1 }
    let output := { output with Value2 := input.Param2 ++ input.Param2 }
    (none, output)

/-! ## Auxiliary lemmas -/

/-- The truncated-remainder test of the code is the divisibility test. -/
theorem goRem_two_eq_zero_iff (n : Int) : goRem n 2 = 0 ↔ 2 ∣ n := by
  unfold goRem
  exact Int.dvd_iff_tmod_eq_zero.symm

/-- On an input whose number is divisible by two the function returns `nil`
and overwrites both fields of the output. -/
theorem func_of_dvd {Ctx : Type} (ctx : Ctx) (input : myInput) (output : myOutput)
    (h : 2 ∣ input.Param1) :
    helloWorld.func ctx input output
      = (none, ⟨goAdd input.Param1 input.Param1, input.Param2 ++ input.Param2⟩) := by
  have h0 : goRem input.Param1 2 = 0 := (goRem_two_eq_zero_iff _).2 h
  simp [helloWorld.func, h0]

/-- On an input whose number is not divisible by two the function returns
`status.InvalidArgument` and does not touch the output. -/
theorem func_of_not_dvd {Ctx : Type} (ctx : Ctx) (input : myInput) (output : myOutput)
    (h : ¬ 2 ∣ input.Param1) :
    helloWorld.func ctx input output = (some status.Code.InvalidArgument, output) := by
  have h0 : goRem input.Param1 2 ≠ 0 := fun e => h ((goRem_two_eq_zero_iff _).1 e)
  simp [helloWorld.func, h0]

/-- The function returns `nil` exactly on the numbers divisible by two. -/
theorem func_fst_eq_none_iff {Ctx : Type} (ctx : Ctx) (input : myInput) (output : myOutput) :
    (helloWorld.func ctx input output).1 = none ↔ 2 ∣ input.Param1 := by
  by_cases h : 2 ∣ input.Param1
  · simp [func_of_dvd ctx input output h, h]
  · simp [func_of_not_dvd ctx input output h, h]

/-- Wrapping lands in the 64-bit signed range. -/
theorem wrapInt_isInt (x : Int) : IsInt (wrapInt x) := by
  unfold IsInt minInt maxInt wrapInt
  omega

/-- Wrapping leaves a number alone exactly when it is in the 64-bit signed
range. -/
theorem wrapInt_eq_self_iff (x : Int) : wrapInt x = x ↔ -(2 ^ 63) ≤ x ∧ x < 2 ^ 63 := by
  unfold wrapInt
  omega

/-- Wrapping preserves divisibility by four. -/
theorem four_dvd_wrapInt (x : Int) (h : 4 ∣ x) : 4 ∣ wrapInt x := by
  unfold wrapInt
  omega

/-- A list appended to itself determines the list. -/
theorem append_self_inj {α : Type} (s t : List α) (h : s ++ s = t ++ t) : s = t := by
  have hl : (s ++ s).length = (t ++ t).length := congrArg List.length h
  simp only [List.length_append] at hl
  exact (List.append_inj h (by omega)).1

/-! ## The claims -/

/-- C1, as stated, fails: the even number `2 ^ 62` is a 64-bit `int`, the call
succeeds, and `Value1` is `-(2 ^ 63)`, which is not twice the input. -/
theorem C1_counterexample :
    IsInt (2 ^ 62) ∧ Even (2 ^ 62 : Int) ∧
    helloWorld.func () ⟨2 ^ 62, goStr "ab"⟩ ⟨0, []⟩ = (none, ⟨-(2 ^ 63), goStr "abab"⟩) ∧
    (helloWorld.func () ⟨2 ^ 62, goStr "ab"⟩ ⟨0, []⟩).2.Value1 ≠ 2 * 2 ^ 62 := by
  decide

/-- C1, amended: for every even number `n` and every string `s` the call returns
no error and leaves `Value2 = s ++ s` and `Value1 = 2 * n` wrapped into the
64-bit signed range; `Value1 = 2 * n` whenever `-(2 ^ 62) ≤ n < 2 ^ 62`. -/
theorem C1_even_doubles {Ctx : Type} (ctx : Ctx) (n : Int) (s : GoString) (out : myOutput)
    (heven : Even n) :
    helloWorld.func ctx ⟨n, s⟩ out = (none, ⟨wrapInt (2 * n), s ++ s⟩) ∧
    (-(2 ^ 62) ≤ n ∧ n < 2 ^ 62 →
      helloWorld.func ctx ⟨n, s⟩ out = (none, ⟨2 * n, s ++ s⟩)) := by
  have hd : 2 ∣ n := even_iff_two_dvd.1 heven
  have hcall := func_of_dvd ctx ⟨n, s⟩ out hd
  simp only [goAdd] at hcall
  have h2 : n + n = 2 * n := by ring
  rw [h2] at hcall
  refine ⟨hcall, fun hr => ?_⟩
  have hw : wrapInt (2 * n) = 2 * n := (wrapInt_eq_self_iff _).2 (by omega)
  rw [hcall, hw]

/-- C1, amended, at `n = 6` with a prior output that holds other values. -/
theorem C1_even_doubles_witness :
    Even (6 : Int) ∧
    (helloWorld.func () ⟨6, goStr "go"⟩ ⟨7, goStr "q"⟩ = (none, ⟨wrapInt (2 * 6), goStr "go" ++ goStr "go"⟩) ∧
     (-(2 ^ 62) ≤ (6 : Int) ∧ (6 : Int) < 2 ^ 62 →
      helloWorld.func () ⟨6, goStr "go"⟩ ⟨7, goStr "q"⟩ = (none, ⟨2 * 6, goStr "go" ++ goStr "go"⟩))) :=
  ⟨by decide, C1_even_doubles () 6 (goStr "go") ⟨7, goStr "q"⟩ (by decide)⟩

/-- C2: for every odd number `n`, positive or negative, and every string `s`
the call returns the error `status.InvalidArgument`. -/
theorem C2_odd_invalid_argument {Ctx : Type} (ctx : Ctx) (n : Int) (s : GoString)
    (out : myOutput) (hodd : Odd n) :
    (helloWorld.func ctx ⟨n, s⟩ out).1 = some status.Code.InvalidArgument := by
  have hnd : ¬ 2 ∣ n := by
    rw [← even_iff_two_dvd, Int.not_even_iff_odd]
    exact hodd
  rw [func_of_not_dvd ctx ⟨n, s⟩ out hnd]

/-- C2 at the documented scenario `{3, "x"}` and at the negative odd `-3`. -/
theorem C2_odd_invalid_argument_witness :
    (Odd (3 : Int) ∧
      (helloWorld.func () ⟨3, goStr "x"⟩ ⟨0, []⟩).1 = some status.Code.InvalidArgument) ∧
    (Odd (-3 : Int) ∧
      (helloWorld.func () ⟨-3, goStr "x"⟩ ⟨0, []⟩).1 = some status.Code.InvalidArgument) :=
  ⟨⟨by decide, C2_odd_invalid_argument () 3 (goStr "x") ⟨0, []⟩ (by decide)⟩,
   ⟨by decide, C2_odd_invalid_argument () (-3) (goStr "x") ⟨0, []⟩ (by decide)⟩⟩

/-- C3: the call returns `nil` or `status.InvalidArgument` and nothing else; it
returns an error exactly when `Param1` is not divisible by two, the truncated
remainder test of the code agreeing with divisibility on every integer,
negative ones included; and the outcome does not depend on `Param2` (nor on the
prior output). -/
theorem C3_error_iff_not_divisible {Ctx : Type} (ctx : Ctx) (input : myInput)
    (output : myOutput) :
    ((helloWorld.func ctx input output).1 = none ∨
      (helloWorld.func ctx input output).1 = some status.Code.InvalidArgument) ∧
    ((helloWorld.func ctx input output).1 ≠ none ↔ ¬ 2 ∣ input.Param1) ∧
    (goRem input.Param1 2 ≠ 0 ↔ ¬ 2 ∣ input.Param1) ∧
    (∀ (s : GoString) (output2 : myOutput),
      (helloWorld.func ctx ⟨input.Param1, s⟩ output2).1
        = (helloWorld.func ctx input output).1) := by
  refine ⟨?_, ?_, ?_, ?_⟩
  · by_cases h : 2 ∣ input.Param1
    · exact Or.inl (by rw [func_of_dvd ctx input output h])
    · exact Or.inr (by rw [func_of_not_dvd ctx input output h])
  · exact not_congr (func_fst_eq_none_iff ctx input output)
  · exact not_congr (goRem_two_eq_zero_iff input.Param1)
  · intro s output2
    by_cases h : 2 ∣ input.Param1
    · rw [func_of_dvd ctx input output h, func_of_dvd ctx ⟨input.Param1, s⟩ output2 h]
    · rw [func_of_not_dvd ctx input output h, func_of_not_dvd ctx ⟨input.Param1, s⟩ output2 h]

/-- C4: when the call fails, which is when `Param1` is odd, the output is left
exactly as it was before the call, whatever it held. -/
theorem C4_failure_leaves_output {Ctx : Type} (ctx : Ctx) (input : myInput)
    (output : myOutput) (hfail : (helloWorld.func ctx input output).1 ≠ none) :
    Odd input.Param1 ∧
    (helloWorld.func ctx input output).2 = output ∧
    (helloWorld.func ctx input output).2.Value1 = output.Value1 ∧
    (helloWorld.func ctx input output).2.Value2 = output.Value2 := by
  have hnd : ¬ 2 ∣ input.Param1 := fun h => hfail ((func_fst_eq_none_iff ctx input output).2 h)
  have hodd : Odd input.Param1 := by
    rw [← Int.not_even_iff_odd, even_iff_two_dvd]
    exact hnd
  rw [func_of_not_dvd ctx input output hnd]
  exact ⟨hodd, rfl, rfl, rfl⟩

/-- C4 at the documented failing scenario `{3, "x"}` with a non-empty prior
output. -/
theorem C4_failure_leaves_output_witness :
    (helloWorld.func () ⟨3, goStr "x"⟩ ⟨7, goStr "q"⟩).1 ≠ none ∧
    (Odd (3 : Int) ∧
     (helloWorld.func () ⟨3, goStr "x"⟩ ⟨7, goStr "q"⟩).2 = ⟨7, goStr "q"⟩ ∧
     (helloWorld.func () ⟨3, goStr "x"⟩ ⟨7, goStr "q"⟩).2.Value1 = 7 ∧
     (helloWorld.func () ⟨3, goStr "x"⟩ ⟨7, goStr "q"⟩).2.Value2 = goStr "q") :=
  ⟨by decide, C4_failure_leaves_output () ⟨3, goStr "x"⟩ ⟨7, goStr "q"⟩ (by decide)⟩

/-- C5: two calls with equal inputs, whatever their contexts and prior outputs,
return the same error, and when they succeed they leave equal outputs. -/
theorem C5_deterministic {Ctx1 Ctx2 : Type} (ctx1 : Ctx1) (ctx2 : Ctx2)
    (input1 input2 : myInput) (output1 output2 : myOutput)
    (h1 : input1.Param1 = input2.Param1) (h2 : input1.Param2 = input2.Param2) :
    (helloWorld.func ctx1 input1 output1).1 = (helloWorld.func ctx2 input2 output2).1 ∧
    ((helloWorld.func ctx1 input1 output1).1 = none →
      (helloWorld.func ctx1 input1 output1).2 = (helloWorld.func ctx2 input2 output2).2) := by
  by_cases h : 2 ∣ input1.Param1
  · have h' : 2 ∣ input2.Param1 := h1 ▸ h
    rw [func_of_dvd ctx1 input1 output1 h, func_of_dvd ctx2 input2 output2 h', h1, h2]
    exact ⟨rfl, fun _ => rfl⟩
  · have h' : ¬ 2 ∣ input2.Param1 := h1 ▸ h
    rw [func_of_not_dvd ctx1 input1 output1 h, func_of_not_dvd ctx2 input2 output2 h']
    exact ⟨rfl, fun hn => by simp at hn⟩

/-- C5 on the input `{4, "ab"}` with two different prior outputs and two
different contexts. -/
theorem C5_deterministic_witness :
    (helloWorld.func () ⟨4, goStr "ab"⟩ ⟨0, []⟩).1
      = (helloWorld.func (5 : Nat) ⟨4, goStr "ab"⟩ ⟨7, goStr "q"⟩).1 ∧
    ((helloWorld.func () ⟨4, goStr "ab"⟩ ⟨0, []⟩).1 = none →
      (helloWorld.func () ⟨4, goStr "ab"⟩ ⟨0, []⟩).2
        = (helloWorld.func (5 : Nat) ⟨4, goStr "ab"⟩ ⟨7, goStr "q"⟩).2) :=
  C5_deterministic () (5 : Nat) ⟨4, goStr "ab"⟩ ⟨4, goStr "ab"⟩ ⟨0, []⟩ ⟨7, goStr "q"⟩ rfl rfl

/-- C6: on an even `Param1` the call succeeds and the final output is the same
for any two prior outputs; `Value1` and `Value2` are both overwritten with
values computed from the input alone. -/
theorem C6_success_overwrites_output {Ctx : Type} (ctx : Ctx) (input : myInput)
    (output1 output2 : myOutput) (heven : Even input.Param1) :
    (helloWorld.func ctx input output1).1 = none ∧
    (helloWorld.func ctx input output1).2 = (helloWorld.func ctx input output2).2 ∧
    (helloWorld.func ctx input output1).2.Value1 = goAdd input.Param1 input.Param1 ∧
    (helloWorld.func ctx input output1).2.Value2 = input.Param2 ++ input.Param2 := by
  have hd : 2 ∣ input.Param1 := even_iff_two_dvd.1 heven
  rw [func_of_dvd ctx input output1 hd, func_of_dvd ctx input output2 hd]
  exact ⟨rfl, rfl, rfl, rfl⟩

/-- C6 on the input `{4, "ab"}` with the prior outputs `{0, ""}` and
`{7, "q"}`. -/
theorem C6_success_overwrites_output_witness :
    Even (4 : Int) ∧
    ((helloWorld.func () ⟨4, goStr "ab"⟩ ⟨0, []⟩).1 = none ∧
     (helloWorld.func () ⟨4, goStr "ab"⟩ ⟨0, []⟩).2
       = (helloWorld.func () ⟨4, goStr "ab"⟩ ⟨7, goStr "q"⟩).2 ∧
     (helloWorld.func () ⟨4, goStr "ab"⟩ ⟨0, []⟩).2.Value1 = goAdd 4 4 ∧
     (helloWorld.func () ⟨4, goStr "ab"⟩ ⟨0, []⟩).2.Value2 = goStr "ab" ++ goStr "ab") :=
  ⟨by decide, C6_success_overwrites_output () ⟨4, goStr "ab"⟩ ⟨0, []⟩ ⟨7, goStr "q"⟩ (by decide)⟩

/-- C7: the three documented success scenarios, for every context and every
prior output: `{4, "ab"}` gives `{8, "abab"}`, `{0, ""}` gives `{0, ""}` and
`{-2, "z"}` gives `{-4, "zz"}`, each with no error. -/
theorem C7_documented_scenarios {Ctx : Type} (ctx : Ctx) (output : myOutput) :
    helloWorld.func ctx ⟨4, goStr "ab"⟩ output = (none, ⟨8, goStr "abab"⟩) ∧
    helloWorld.func ctx ⟨0, goStr ""⟩ output = (none, ⟨0, goStr ""⟩) ∧
    helloWorld.func ctx ⟨-2, goStr "z"⟩ output = (none, ⟨-4, goStr "zz"⟩) := by
  refine ⟨?_, ?_, ?_⟩
  · rw [func_of_dvd ctx _ output (by decide)]
    decide
  · rw [func_of_dvd ctx _ output (by decide)]
    decide
  · rw [func_of_dvd ctx _ output (by decide)]
    decide

/-- C8: for a 64-bit `Param1`, a successful call sets `Value1` to
`Param1 + Param1` wrapped modulo `2 ^ 64` into the signed range; `Value1` is the
mathematical `2 * Param1` exactly when `-(2 ^ 62) ≤ Param1 < 2 ^ 62`; and the
even input `2 ^ 62` succeeds with `Value1 = -(2 ^ 63)`, not `2 * Param1`. -/
theorem C8_value1_wraps :
    (∀ {Ctx : Type} (ctx : Ctx) (input : myInput) (output : myOutput),
      IsInt input.Param1 → (helloWorld.func ctx input output).1 = none →
        (helloWorld.func ctx input output).2.Value1
            = (input.Param1 + input.Param1 + 2 ^ 63) % 2 ^ 64 - 2 ^ 63 ∧
        IsInt (helloWorld.func ctx input output).2.Value1 ∧
        ((helloWorld.func ctx input output).2.Value1 = 2 * input.Param1 ↔
          -(2 ^ 62) ≤ input.Param1 ∧ input.Param1 < 2 ^ 62)) ∧
    (IsInt (2 ^ 62) ∧ Even (2 ^ 62 : Int) ∧
      (helloWorld.func () ⟨2 ^ 62, goStr "ab"⟩ ⟨0, []⟩).1 = none ∧
      (helloWorld.func () ⟨2 ^ 62, goStr "ab"⟩ ⟨0, []⟩).2.Value1 = -(2 ^ 63) ∧
      (helloWorld.func () ⟨2 ^ 62, goStr "ab"⟩ ⟨0, []⟩).2.Value1 ≠ 2 * 2 ^ 62) := by
  refine ⟨?_, by decide⟩
  intro Ctx ctx input output hint hsucc
  have hd : 2 ∣ input.Param1 := (func_fst_eq_none_iff ctx input output).1 hsucc
  rw [func_of_dvd ctx input output hd]
  simp only [goAdd]
  refine ⟨rfl, wrapInt_isInt _, ?_⟩
  unfold IsInt minInt maxInt at hint
  unfold wrapInt
  omega

/-- C8 at the input `{2 ^ 62, "ab"}`, where the sum wraps around. -/
theorem C8_value1_wraps_witness :
    (helloWorld.func () ⟨2 ^ 62, goStr "ab"⟩ ⟨0, []⟩).2.Value1
        = ((2 ^ 62 : Int) + 2 ^ 62 + 2 ^ 63) % 2 ^ 64 - 2 ^ 63 ∧
    IsInt (helloWorld.func () ⟨2 ^ 62, goStr "ab"⟩ ⟨0, []⟩).2.Value1 ∧
    ((helloWorld.func () ⟨2 ^ 62, goStr "ab"⟩ ⟨0, []⟩).2.Value1 = 2 * 2 ^ 62 ↔
      -(2 ^ 62) ≤ (2 ^ 62 : Int) ∧ (2 ^ 62 : Int) < 2 ^ 62) :=
  C8_value1_wraps.1 () ⟨2 ^ 62, goStr "ab"⟩ ⟨0, []⟩ (by decide) (by decide)

/-- C9: after a successful call `Value2` is twice as long as `Param2`, its
first half and its second half are both `Param2`, and the text mapping is
injective: a second successful call that leaves the same `Value2` had the same
`Param2`. -/
theorem C9_text_doubling {Ctx : Type} (ctx : Ctx) (input : myInput) (output : myOutput)
    (hsucc : (helloWorld.func ctx input output).1 = none) :
    (helloWorld.func ctx input output).2.Value2.length = 2 * input.Param2.length ∧
    (helloWorld.func ctx input output).2.Value2.take input.Param2.length = input.Param2 ∧
    (helloWorld.func ctx input output).2.Value2.drop input.Param2.length = input.Param2 ∧
    (∀ {Ctx2 : Type} (ctx2 : Ctx2) (input2 : myInput) (output2 : myOutput),
      (helloWorld.func ctx2 input2 output2).1 = none →
      (helloWorld.func ctx2 input2 output2).2.Value2
        = (helloWorld.func ctx input output).2.Value2 →
      input2.Param2 = input.Param2) := by
  have hd : 2 ∣ input.Param1 := (func_fst_eq_none_iff ctx input output).1 hsucc
  rw [func_of_dvd ctx input output hd]
  refine ⟨?_, ?_, ?_, ?_⟩
  · simp only [List.length_append]
    omega
  · simp
  · simp
  · intro Ctx2 ctx2 input2 output2 hsucc2 heq
    have hd2 : 2 ∣ input2.Param1 := (func_fst_eq_none_iff ctx2 input2 output2).1 hsucc2
    rw [func_of_dvd ctx2 input2 output2 hd2] at heq
    exact append_self_inj _ _ heq

/-- C9 on the input `{4, "ab"}`. -/
theorem C9_text_doubling_witness :
    (helloWorld.func () ⟨4, goStr "ab"⟩ ⟨0, []⟩).1 = none ∧
    (helloWorld.func () ⟨4, goStr "ab"⟩ ⟨0, []⟩).2.Value2.length = 2 * (goStr "ab").length ∧
    (helloWorld.func () ⟨4, goStr "ab"⟩ ⟨0, []⟩).2.Value2.take (goStr "ab").length
      = goStr "ab" ∧
    (helloWorld.func () ⟨4, goStr "ab"⟩ ⟨0, []⟩).2.Value2.drop (goStr "ab").length
      = goStr "ab" :=
  have h := C9_text_doubling () ⟨4, goStr "ab"⟩ ⟨0, []⟩ (by decide)
  ⟨by decide, h.1, h.2.1, h.2.2.1⟩

/-- C10: after a successful call `Value1` is divisible by four, hence even,
also when `Param1 + Param1` wraps around, and it is a 64-bit `int`; so a second
call on `{Value1, Value2}` returns no error, for every context and prior
output. -/
theorem C10_output_is_valid_input {Ctx : Type} (ctx : Ctx) (input : myInput)
    (output : myOutput) (hsucc : (helloWorld.func ctx input output).1 = none) :
    4 ∣ (helloWorld.func ctx input output).2.Value1 ∧
    Even (helloWorld.func ctx input output).2.Value1 ∧
    IsInt (helloWorld.func ctx input output).2.Value1 ∧
    (∀ {Ctx2 : Type} (ctx2 : Ctx2) (output2 : myOutput),
      (helloWorld.func ctx2
        ⟨(helloWorld.func ctx input output).2.Value1,
         (helloWorld.func ctx input output).2.Value2⟩ output2).1 = none) := by
  have hd : 2 ∣ input.Param1 := (func_fst_eq_none_iff ctx input output).1 hsucc
  rw [func_of_dvd ctx input output hd]
  simp only [goAdd]
  have h4 : 4 ∣ wrapInt (input.Param1 + input.Param1) := four_dvd_wrapInt _ (by omega)
  have h2 : 2 ∣ wrapInt (input.Param1 + input.Param1) := by omega
  refine ⟨h4, even_iff_two_dvd.2 h2, wrapInt_isInt _, ?_⟩
  intro Ctx2 ctx2 output2
  exact (func_fst_eq_none_iff ctx2 _ output2).2 h2

/-- C10 at the input `{2 ^ 62, "ab"}`, where the sum wraps around to
`-(2 ^ 63)`. -/
theorem C10_output_is_valid_input_witness :
    (helloWorld.func () ⟨2 ^ 62, goStr "ab"⟩ ⟨0, []⟩).1 = none ∧
    4 ∣ (helloWorld.func () ⟨2 ^ 62, goStr "ab"⟩ ⟨0, []⟩).2.Value1 ∧
    (helloWorld.func ()
      ⟨(helloWorld.func () ⟨2 ^ 62, goStr "ab"⟩ ⟨0, []⟩).2.Value1,
       (helloWorld.func () ⟨2 ^ 62, goStr "ab"⟩ ⟨0, []⟩).2.Value2⟩ ⟨7, goStr "q"⟩).1 = none :=
  have h := C10_output_is_valid_input () ⟨2 ^ 62, goStr "ab"⟩ ⟨0, []⟩ (by decide)
  ⟨by decide, h.1, h.2.2.2 () ⟨7, goStr "q"⟩⟩
